import Mathlib

/-!
# Inventory ledger and aggregation engine: shallow embedding

Shallow embedding of the stock-adjustment and aggregation core of the Choppi
API (`src/src/products/products.service.ts`, `src/src/stores/stores.service.ts`,
`src/src/products/dto/adjust-stock.dto.ts`), together with theorems checking
the specification's claims about it.

Numbers: TypeScript `number` stock counts and quantities are embedded as `Int`
(the DTO validation layer enforces integrality); `decimal(10,2)` prices and
derived monetary aggregates are embedded as exact rationals `ℚ`.
`Math.round(x * 100) / 100` is embedded as round-half-toward-positive-infinity
on rationals (`jsRound`).

The TypeORM repository is embedded as an explicit `List Product` / `List Store`
state; `save` is a write-back by id, and the `order: { stock: 'ASC' }` clause of
`findLowStock` is embedded as a stable ascending insertion sort on the stock
field.
-/

namespace Choppi

/-- Product entity (src/src/products/entities/product.entity.ts): id, name,
price (`decimal(10,2)`), unique sku, stock (default 0), nullable category,
soft-delete flag `isActive`, owning `storeId`. -/
structure Product where
  id : String
  name : String
  price : ℚ
  sku : String
  stock : Int
  category : Option String
  isActive : Bool
  storeId : String
deriving DecidableEq

/-- Store entity (src/src/stores/entities/store.entity.ts), the fields the
aggregation core reads: id, name, soft-delete flag `isActive`. -/
structure Store where
  id : String
  name : String
  isActive : Bool
deriving DecidableEq

/-- The StockAdjustmentType enum from src/src/products/dto/adjust-stock.dto.ts:
`'add' | 'subtract' | 'set'`. -/
inductive StockAdjustmentType where
  | add
  | subtract
  | set
deriving DecidableEq

/-- Errors thrown by the services. `notFound` models `NotFoundException` with
its message; `insufficientStock` models the `BadRequestException` of
`adjustStock`'s subtract branch, whose message carries the current stock and
the requested quantity; `invalidArgument` models a validation-layer 400. -/
inductive ApiError where
  | notFound (message : String)
  | insufficientStock (currentStock requested : Int)
  | invalidArgument
deriving DecidableEq

/-- JavaScript `Math.round`: rounds to the nearest integer, halves toward
positive infinity. -/
def jsRound (x : ℚ) : Int := ⌊x + 1 / 2⌋

/-- The `Math.round(x * 100) / 100` two-decimal rounding applied by
`getStats` and `getRevenue`. -/
def round2 (x : ℚ) : ℚ := (jsRound (x * 100) : ℚ) / 100

namespace ProductsService

/-- Embeds `ProductsService.findOne` (products.service.ts:93-104): look up a product
by id restricted to `isActive: true`; `NotFoundException` otherwise. -/
def findOne (products : List Product) (id : String) : Except ApiError Product :=
  match products.find? (fun p => p.id == id && p.isActive) with
  | some p => Except.ok p
  | none => Except.error (ApiError.notFound ("Producto con ID " ++ id ++ " no encontrado"))

/-- Embeds `productsRepository.save(product)`: write back the mutated product record
by id into the repository state. -/
def saveProduct (products : List Product) (p : Product) : List Product :=
  products.map (fun q => if q.id == p.id then p else q)

/-- The `{ product, previousStock, newStock }` result of `adjustStock`. -/
structure AdjustResult where
  product : Product
  previousStock : Int
  newStock : Int
deriving DecidableEq

/-- Embeds `ProductsService.adjustStock` (products.service.ts:161-193): find the
active product, switch on the adjustment type (`add` unconditionally adds,
`subtract` throws `BadRequestException` when `stock < quantity` and otherwise
subtracts, `set` assigns unconditionally), then save. The returned pair is
(repository state after the call, thrown error or result); an exception is
thrown before `save`, so on error the state is unchanged. -/
def adjustStock (products : List Product) (id : String) (quantity : Int)
    (ty : StockAdjustmentType) : List Product × Except ApiError AdjustResult :=
  match findOne products id with
  | Except.error e => (products, Except.error e)
  | Except.ok product =>
    match ty with
    | StockAdjustmentType.add =>
      let updated : Product := { product with stock := product.stock + quantity }
      (saveProduct products updated,
        Except.ok { product := updated, previousStock := product.stock, newStock := updated.stock })
    | StockAdjustmentType.subtract =>
      if product.stock < quantity then
        (products, Except.error (ApiError.insufficientStock product.stock quantity))
      else
        let updated : Product := { product with stock := product.stock - quantity }
        (saveProduct products updated,
          Except.ok { product := updated, previousStock := product.stock, newStock := updated.stock })
    | StockAdjustmentType.set =>
      let updated : Product := { product with stock := quantity }
      (saveProduct products updated,
        Except.ok { product := updated, previousStock := product.stock, newStock := updated.stock })

/-- The repository ordering `order: { stock: 'ASC' }` used by `findLowStock`,
as a relation on products. -/
def byStockAsc (a b : Product) : Prop := a.stock ≤ b.stock

instance : DecidableRel byStockAsc := fun a b => Int.decLe a.stock b.stock

instance : IsTotal Product byStockAsc := ⟨fun a b => Int.le_total a.stock b.stock⟩

instance : IsTrans Product byStockAsc := ⟨fun _ _ _ hab hbc => Int.le_trans hab hbc⟩

/-- Embeds `ProductsService.findLowStock` (products.service.ts:195-201): fetch all
active products ordered ascending by stock (the repository's ordering is
embedded as a stable insertion sort on the stock field), then filter in memory
to `stock <= threshold`. -/
def findLowStock (products : List Product) (threshold : Int) : List Product :=
  (List.insertionSort byStockAsc (products.filter (fun p => p.isActive))).filter
    (fun p => decide (p.stock ≤ threshold))

/-- Validation constraints on `AdjustStockDto.quantity`
(src/src/products/dto/adjust-stock.dto.ts): `@IsInt()` and `@Min(0)`;
integrality is inherent in the `Int` embedding. -/
def quantityValid (quantity : Int) : Bool := decide (0 ≤ quantity)

/-- Modelled from the spec: the caller/validation layer ("`quantity` must be a
non-negative integer — enforced by the caller/validation layer"; "InvalidArgument —
negative or otherwise malformed quantity... Rejected before any mutation")
applies the `AdjustStockDto` constraints before the service runs; the NestJS
`ValidationPipe` registration itself is not under src/. A quantity failing
validation is rejected with InvalidArgument and the service never runs. -/
def adjustStockValidated (products : List Product) (id : String) (quantity : Int)
    (ty : StockAdjustmentType) : List Product × Except ApiError AdjustResult :=
  if quantityValid quantity then adjustStock products id quantity ty
  else (products, Except.error ApiError.invalidArgument)

/-- Repository state after a sequence of validated stock adjustments, each
given as (product id, quantity, type). -/
def applyAdjustments (products : List Product) :
    List (String × Int × StockAdjustmentType) → List Product
  | [] => products
  | op :: rest => applyAdjustments (adjustStockValidated products op.1 op.2.1 op.2.2).1 rest

end ProductsService

namespace StoresService

/-- One `productsByCategory` entry of `getStats`. -/
structure CategoryGroup where
  category : String
  productCount : Nat
  totalValue : ℚ
deriving DecidableEq

/-- Result shape of `StoresService.getStats`. -/
structure StoreStats where
  storeId : String
  storeName : String
  totalProducts : Nat
  totalInventoryValue : ℚ
  productsByCategory : List CategoryGroup
  lowStockProducts : Nat
  lowStockThreshold : Int
deriving DecidableEq

/-- Result shape of `StoresService.getRevenue`. -/
structure StoreRevenue where
  storeId : String
  storeName : String
  totalInventoryValue : ℚ
  totalProducts : Nat
  totalStock : Int
  averageProductPrice : ℚ
deriving DecidableEq

/-- Embeds `product.category || 'Sin categoría'` (stores.service.ts:103): JavaScript
`||` treats both a missing category and the empty string as falsy, so both
fall into the single `"Sin categoría"` (uncategorized) bucket. -/
def categoryKey (category : Option String) : String :=
  match category with
  | none => "Sin categoría"
  | some s => if s == "" then "Sin categoría" else s

/-- One step of the `categoriesMap` fold (stores.service.ts:101-109): JS `Map`
semantics — `set` on an existing key updates the entry in place keeping its
position, a new key is appended at the end (insertion order of first
encounter). Entries are (category, count, value). -/
def insertCategory (m : List (String × Nat × ℚ)) (key : String) (value : ℚ) :
    List (String × Nat × ℚ) :=
  if m.any (fun e => e.1 == key) then
    m.map (fun e => if e.1 == key then (e.1, e.2.1 + 1, e.2.2 + value) else e)
  else
    m ++ [(key, 1, value)]

/-- Embeds `StoresService.getStats` (stores.service.ts:85-132): find the active
store (with its products relation — all products whose `storeId` is the
store's id), filter to active products, then compute count, total inventory
value (one fold of `price * stock`, rounded to 2 decimals once at the end),
the per-category map (per-group value rounded to 2 decimals), and the count
of products at or below the low-stock threshold. -/
def getStats (stores : List Store) (products : List Product) (id : String)
    (lowStockThreshold : Int) : Except ApiError StoreStats :=
  match stores.find? (fun s => s.id == id && s.isActive) with
  | none => Except.error (ApiError.notFound ("Supermercado con ID " ++ id ++ " no encontrado"))
  | some store =>
    let storeProducts := products.filter (fun p => p.storeId == store.id)
    let activeProducts := storeProducts.filter (fun p => p.isActive)
    let totalProducts := activeProducts.length
    let totalInventoryValue :=
      activeProducts.foldl (fun sum p => sum + p.price * (p.stock : ℚ)) 0
    let categoriesMap := activeProducts.foldl
      (fun m p => insertCategory m (categoryKey p.category) (p.price * (p.stock : ℚ))) []
    let productsByCategory := categoriesMap.map (fun e =>
      { category := e.1, productCount := e.2.1, totalValue := round2 e.2.2 : CategoryGroup })
    let lowStockProducts :=
      (activeProducts.filter (fun p => decide (p.stock ≤ lowStockThreshold))).length
    Except.ok
      { storeId := store.id
        storeName := store.name
        totalProducts := totalProducts
        totalInventoryValue := round2 totalInventoryValue
        productsByCategory := productsByCategory
        lowStockProducts := lowStockProducts
        lowStockThreshold := lowStockThreshold }

/-- Embeds `StoresService.getRevenue` (stores.service.ts:134-164): find the active
store, filter to active products, then compute count, total stock, total
inventory value (rounded to 2 decimals), and the average product price —
`0` when there are no active products, else the mean of prices — rounded to
2 decimals. -/
def getRevenue (stores : List Store) (products : List Product) (id : String) :
    Except ApiError StoreRevenue :=
  match stores.find? (fun s => s.id == id && s.isActive) with
  | none => Except.error (ApiError.notFound ("Supermercado con ID " ++ id ++ " no encontrado"))
  | some store =>
    let activeProducts :=
      (products.filter (fun p => p.storeId == store.id)).filter (fun p => p.isActive)
    let totalProducts := activeProducts.length
    let totalStock := activeProducts.foldl (fun sum p => sum + p.stock) 0
    let totalInventoryValue :=
      activeProducts.foldl (fun sum p => sum + p.price * (p.stock : ℚ)) 0
    let averageProductPrice : ℚ :=
      if totalProducts > 0 then
        (activeProducts.foldl (fun sum p => sum + p.price) 0) / (totalProducts : ℚ)
      else 0
    Except.ok
      { storeId := store.id
        storeName := store.name
        totalInventoryValue := round2 totalInventoryValue
        totalProducts := totalProducts
        totalStock := totalStock
        averageProductPrice := round2 averageProductPrice }

end StoresService

deriving instance DecidableEq for Except

/-! ## Demo data used by the concrete witnesses -/

/-- A concrete active store. -/
def demoStore : Store := { id := "s1", name := "Choppi Centro", isActive := true }

/-- A concrete active product of `demoStore`. -/
def demoProduct : Product :=
  { id := "p1", name := "Coca Cola 600ml", price := 51 / 2, sku := "SKU-CC-600",
    stock := 100, category := some "Bebidas", isActive := true, storeId := "s1" }

/-- A concrete soft-deleted product of `demoStore`. -/
def demoInactive : Product :=
  { id := "p2", name := "Producto retirado", price := 5, sku := "SKU-OLD", stock := 7,
    category := none, isActive := false, storeId := "s1" }

/-- A concrete soft-deleted store. -/
def demoInactiveStore : Store := { id := "s2", name := "Choppi Cerrado", isActive := false }

/-! ## Helper lemmas -/

/-- Rounding zero: `Math.round(0 * 100) / 100 = 0`. -/
lemma jsRound_zero : jsRound 0 = 0 := by
  have h : ⌊(0 : ℚ) + 1 / 2⌋ = 0 := by
    rw [Int.floor_eq_iff]
    norm_num
  simpa [jsRound] using h

/-- Rounding zero to two decimals gives zero. -/
lemma round2_zero : round2 0 = 0 := by
  simp [round2, jsRound_zero]

/-- A left fold that keeps adding `f` equals the initial value plus the sum of
the mapped list. -/
lemma foldl_add_map_sum {α M : Type} [AddCommMonoid M] (f : α → M) :
    ∀ (l : List α) (init : M), l.foldl (fun s a => s + f a) init = init + (l.map f).sum
  | [], init => by simp
  | a :: l, init => by
    simp [foldl_add_map_sum f l (init + f a), add_assoc]

/-- Unfolding `findOne` success: the underlying repository lookup found the
product. -/
lemma find?_of_findOne_ok (products : List Product) (id : String) (product : Product)
    (hfind : ProductsService.findOne products id = Except.ok product) :
    products.find? (fun p => p.id == id && p.isActive) = some product := by
  unfold ProductsService.findOne at hfind
  cases hf : products.find? (fun p => p.id == id && p.isActive) with
  | none => rw [hf] at hfind; exact absurd hfind (by simp)
  | some p =>
    rw [hf] at hfind
    have hp : p = product := by simpa using hfind
    rw [hp]

/-- The product found by `findOne` matches the requested id and is active. -/
lemma findOne_ok_matches (products : List Product) (id : String) (product : Product)
    (hfind : ProductsService.findOne products id = Except.ok product) :
    product.id = id ∧ product.isActive = true := by
  have hp := List.find?_some (find?_of_findOne_ok products id product hfind)
  rw [Bool.and_eq_true, beq_iff_eq] at hp
  exact hp

/-- Behaviour of `find?` on a cons whose head satisfies the predicate. -/
lemma find?_cons_true {α : Type} {p : α → Bool} {a : α} {l : List α} (h : p a = true) :
    (a :: l).find? p = some a := by
  simp [List.find?_cons, h]

/-- Behaviour of `find?` on a cons whose head fails the predicate. -/
lemma find?_cons_false {α : Type} {p : α → Bool} {a : α} {l : List α} (h : p a = false) :
    (a :: l).find? p = l.find? p := by
  simp [List.find?_cons, h]

/-- After writing back a record with the same id that is still active, the
same active-lookup finds exactly the written record. -/
lemma find?_saveProduct (id : String) (product updated : Product)
    (hid : updated.id = product.id) (hact : updated.isActive = true) :
    ∀ products : List Product,
      products.find? (fun p => p.id == id && p.isActive) = some product →
      (ProductsService.saveProduct products updated).find?
        (fun p => p.id == id && p.isActive) = some updated
  | [], h => by simp at h
  | a :: l, h => by
    have hpid : product.id = id := by
      have hp := List.find?_some h
      rw [Bool.and_eq_true, beq_iff_eq] at hp
      exact hp.1
    have hupd : (updated.id == id && updated.isActive) = true := by
      rw [Bool.and_eq_true, beq_iff_eq, hid, hpid]
      exact ⟨rfl, hact⟩
    simp only [ProductsService.saveProduct, List.map_cons]
    cases hpa : (a.id == id && a.isActive) with
    | true =>
      rw [find?_cons_true (p := fun p : Product => p.id == id && p.isActive) hpa] at h
      have ha : a = product := by simpa using h
      subst ha
      rw [if_pos (show (a.id == updated.id) = true by rw [beq_iff_eq, hid])]
      exact find?_cons_true (p := fun p : Product => p.id == id && p.isActive) hupd
    | false =>
      rw [find?_cons_false (p := fun p : Product => p.id == id && p.isActive) hpa] at h
      by_cases haid : a.id = updated.id
      · rw [if_pos (show (a.id == updated.id) = true by rw [beq_iff_eq]; exact haid)]
        exact find?_cons_true (p := fun p : Product => p.id == id && p.isActive) hupd
      · rw [if_neg (show ¬(a.id == updated.id) = true by rw [beq_iff_eq]; exact haid)]
        rw [find?_cons_false (p := fun p : Product => p.id == id && p.isActive) hpa]
        exact find?_saveProduct id product updated hid hact l h

/-- Writing the same record back twice is the same as writing it once. -/
lemma saveProduct_idem (products : List Product) (u : Product) :
    ProductsService.saveProduct (ProductsService.saveProduct products u) u =
      ProductsService.saveProduct products u := by
  unfold ProductsService.saveProduct
  rw [List.map_map]
  apply List.map_congr_left
  intro a _
  by_cases h : a.id = u.id
  · simp [Function.comp, beq_iff_eq, h]
  · simp [Function.comp, beq_iff_eq, h]

/-! ## C1: Decrease mode -/

/-- C1: for every product and quantity, Decrease (`'subtract'`) fails with
InsufficientStock carrying the current stock and the requested quantity and
leaves the repository state (hence the product's stock) unchanged when
`quantity > previousStock`; otherwise it succeeds with
`newStock = previousStock - quantity` and writes the updated product back. -/
theorem adjustStock_decrease_spec (products : List Product) (id : String) (quantity : Int)
    (product : Product)
    (hfind : ProductsService.findOne products id = Except.ok product) :
    (product.stock < quantity →
      ProductsService.adjustStock products id quantity StockAdjustmentType.subtract =
        (products, Except.error (ApiError.insufficientStock product.stock quantity))) ∧
    (quantity ≤ product.stock →
      ProductsService.adjustStock products id quantity StockAdjustmentType.subtract =
        (ProductsService.saveProduct products { product with stock := product.stock - quantity },
         Except.ok { product := { product with stock := product.stock - quantity },
                     previousStock := product.stock,
                     newStock := product.stock - quantity })) := by
  unfold ProductsService.adjustStock
  rw [hfind]
  constructor
  · intro h
    simp [h]
  · intro h
    simp [not_lt.mpr h]

/-- Witness for C1: on a product with stock 100, subtracting 200 fails with
InsufficientStock 100 200 and leaves the state unchanged. -/
theorem adjustStock_decrease_spec_witness :
    (ProductsService.findOne [demoProduct] "p1" = Except.ok demoProduct ∧
      demoProduct.stock < 200) ∧
    ProductsService.adjustStock [demoProduct] "p1" 200 StockAdjustmentType.subtract =
      ([demoProduct], Except.error (ApiError.insufficientStock demoProduct.stock 200)) :=
  ⟨⟨rfl, by decide⟩,
    (adjustStock_decrease_spec [demoProduct] "p1" 200 demoProduct rfl).1 (by decide)⟩

/-! ## C3: negative quantities -/

/-- C3: for every product, mode and negative quantity, the validated
AdjustStock operation is rejected as InvalidArgument before the service runs:
the repository state is returned unchanged, so no write-back occurs. -/
theorem adjustStock_negative_rejected (products : List Product) (id : String)
    (quantity : Int) (ty : StockAdjustmentType) (h : quantity < 0) :
    ProductsService.adjustStockValidated products id quantity ty =
      (products, Except.error ApiError.invalidArgument) := by
  simp [ProductsService.adjustStockValidated, ProductsService.quantityValid, not_le.mpr h]

/-- Witness for C3: quantity -5 in `add` mode is rejected with the state
unchanged. -/
theorem adjustStock_negative_rejected_witness :
    (-5 : Int) < 0 ∧
    ProductsService.adjustStockValidated [demoProduct] "p1" (-5) StockAdjustmentType.add =
      ([demoProduct], Except.error ApiError.invalidArgument) :=
  ⟨by decide,
    adjustStock_negative_rejected [demoProduct] "p1" (-5) StockAdjustmentType.add (by decide)⟩

/-! ## C4: empty-store revenue -/

/-- C4: for every store that exists and is active but has zero active
products, getRevenue succeeds and returns all-zero aggregates (in particular
`averageProductPrice = 0`, with no division by zero). -/
theorem getRevenue_empty_store (stores : List Store) (products : List Product) (id : String)
    (store : Store)
    (hstore : stores.find? (fun s => s.id == id && s.isActive) = some store)
    (hempty : ∀ p ∈ products, p.storeId = store.id → p.isActive = false) :
    StoresService.getRevenue stores products id = Except.ok
      { storeId := store.id, storeName := store.name, totalInventoryValue := 0,
        totalProducts := 0, totalStock := 0, averageProductPrice := 0 } := by
  unfold StoresService.getRevenue
  rw [hstore]
  have hnil : (products.filter (fun p => p.storeId == store.id)).filter
      (fun p => p.isActive) = [] := by
    rw [List.filter_eq_nil_iff]
    intro p hp
    rw [List.mem_filter] at hp
    obtain ⟨hmem, hsid⟩ := hp
    rw [beq_iff_eq] at hsid
    simp [hempty p hmem hsid]
  simp [hnil, round2_zero]

/-- Witness for C4: an active store whose only product is soft-deleted yields
the all-zero revenue record. -/
theorem getRevenue_empty_store_witness :
    ([demoStore].find? (fun s => s.id == "s1" && s.isActive) = some demoStore ∧
      ∀ p ∈ [demoInactive], p.storeId = demoStore.id → p.isActive = false) ∧
    StoresService.getRevenue [demoStore] [demoInactive] "s1" = Except.ok
      { storeId := demoStore.id, storeName := demoStore.name, totalInventoryValue := 0,
        totalProducts := 0, totalStock := 0, averageProductPrice := 0 } :=
  ⟨⟨rfl, by decide⟩,
    getRevenue_empty_store [demoStore] [demoInactive] "s1" demoStore rfl (by decide)⟩

/-! ## C9: idempotence of SetAbsolute -/

/-- C9: for every product and non-negative quantity q, `'set'` mode writes
stock q; applying it twice in a row leaves the repository in the same state as
applying it once, and after the application every record with the product's id
has stock q. -/
theorem setAbsolute_idempotent (products : List Product) (id : String) (q : Int)
    (product : Product) (hq : 0 ≤ q)
    (hfind : ProductsService.findOne products id = Except.ok product) :
    ProductsService.adjustStock products id q StockAdjustmentType.set =
      (ProductsService.saveProduct products { product with stock := q },
       Except.ok { product := { product with stock := q },
                   previousStock := product.stock, newStock := q }) ∧
    (ProductsService.adjustStock
        (ProductsService.adjustStock products id q StockAdjustmentType.set).1
        id q StockAdjustmentType.set).1 =
      (ProductsService.adjustStock products id q StockAdjustmentType.set).1 ∧
    ∀ p ∈ (ProductsService.adjustStock products id q StockAdjustmentType.set).1,
      p.id = id → p.stock = q := by
  have hmatch := findOne_ok_matches products id product hfind
  have hstep : ProductsService.adjustStock products id q StockAdjustmentType.set =
      (ProductsService.saveProduct products { product with stock := q },
       Except.ok { product := { product with stock := q },
                   previousStock := product.stock, newStock := q }) := by
    unfold ProductsService.adjustStock
    rw [hfind]
  refine ⟨hstep, ?_, ?_⟩
  · rw [hstep]
    have hf2 := find?_saveProduct id product { product with stock := q } rfl hmatch.2
      products (find?_of_findOne_ok products id product hfind)
    have hfindOne2 : ProductsService.findOne
        (ProductsService.saveProduct products { product with stock := q }) id =
        Except.ok { product with stock := q } := by
      unfold ProductsService.findOne
      rw [hf2]
    unfold ProductsService.adjustStock
    rw [hfindOne2]
    exact saveProduct_idem products { product with stock := q }
  · rw [hstep]
    intro p hp hpid
    unfold ProductsService.saveProduct at hp
    rw [List.mem_map] at hp
    obtain ⟨a, _, hpe⟩ := hp
    subst hpe
    by_cases hcase : a.id = { product with stock := q }.id
    · rw [if_pos (show (a.id == Product.id { product with stock := q }) = true by
        rw [beq_iff_eq]; exact hcase)]
    · rw [if_neg (show ¬(a.id == Product.id { product with stock := q }) = true by
        rw [beq_iff_eq]; exact hcase)] at hpid ⊢
      exact absurd (hpid.trans hmatch.1.symm) hcase

/-- Witness for C9: setting stock to 75 twice on `demoProduct` leaves the same
repository state as setting it once. -/
theorem setAbsolute_idempotent_witness :
    ((0 : Int) ≤ 75 ∧ ProductsService.findOne [demoProduct] "p1" = Except.ok demoProduct) ∧
    (ProductsService.adjustStock
        (ProductsService.adjustStock [demoProduct] "p1" 75 StockAdjustmentType.set).1
        "p1" 75 StockAdjustmentType.set).1 =
      (ProductsService.adjustStock [demoProduct] "p1" 75 StockAdjustmentType.set).1 :=
  ⟨⟨by decide, rfl⟩,
    (setAbsolute_idempotent [demoProduct] "p1" 75 demoProduct (by decide) rfl).2.1⟩

/-! ## C7: NotFound on missing or inactive records -/

/-- C7: when no active store matches the id, getStats and getRevenue fail with
NotFound; when no active product matches the id, adjustStock fails with
NotFound and the repository state is returned unchanged (no mutation). -/
theorem notFound_on_missing_or_inactive (stores : List Store) (products : List Product)
    (id : String) (t q : Int) (ty : StockAdjustmentType) :
    ((∀ s ∈ stores, ¬(s.id = id ∧ s.isActive = true)) →
      StoresService.getStats stores products id t =
        Except.error (ApiError.notFound ("Supermercado con ID " ++ id ++ " no encontrado")) ∧
      StoresService.getRevenue stores products id =
        Except.error (ApiError.notFound ("Supermercado con ID " ++ id ++ " no encontrado"))) ∧
    ((∀ p ∈ products, ¬(p.id = id ∧ p.isActive = true)) →
      ProductsService.adjustStock products id q ty =
        (products, Except.error
          (ApiError.notFound ("Producto con ID " ++ id ++ " no encontrado")))) := by
  constructor
  · intro h
    have hnone : stores.find? (fun s => s.id == id && s.isActive) = none := by
      rw [List.find?_eq_none]
      exact fun s hs hc => h s hs (by simpa [Bool.and_eq_true, beq_iff_eq] using hc)
    constructor
    · unfold StoresService.getStats
      rw [hnone]
    · unfold StoresService.getRevenue
      rw [hnone]
  · intro h
    have hnone : products.find? (fun p => p.id == id && p.isActive) = none := by
      rw [List.find?_eq_none]
      exact fun p hp hc => h p hp (by simpa [Bool.and_eq_true, beq_iff_eq] using hc)
    have hfind : ProductsService.findOne products id =
        Except.error (ApiError.notFound ("Producto con ID " ++ id ++ " no encontrado")) := by
      unfold ProductsService.findOne
      rw [hnone]
    unfold ProductsService.adjustStock
    rw [hfind]

/-- Witness for C7: an inactive store id fails getStats with NotFound, and an
inactive product id fails adjustStock with NotFound leaving the state
unchanged. -/
theorem notFound_on_missing_or_inactive_witness :
    ((∀ s ∈ [demoInactiveStore], ¬(s.id = "s2" ∧ s.isActive = true)) ∧
      (∀ p ∈ [demoInactive], ¬(p.id = "p2" ∧ p.isActive = true))) ∧
    StoresService.getStats [demoInactiveStore] [demoInactive] "s2" 10 =
      Except.error (ApiError.notFound ("Supermercado con ID " ++ "s2" ++ " no encontrado")) ∧
    ProductsService.adjustStock [demoInactive] "p2" 5 StockAdjustmentType.add =
      ([demoInactive], Except.error
        (ApiError.notFound ("Producto con ID " ++ "p2" ++ " no encontrado"))) :=
  ⟨⟨by decide, by decide⟩,
    ((notFound_on_missing_or_inactive [demoInactiveStore] [demoInactive] "s2" 10 5
      StockAdjustmentType.add).1 (by decide)).1,
    (notFound_on_missing_or_inactive [demoInactiveStore] [demoInactive] "p2" 10 5
      StockAdjustmentType.add).2 (by decide)⟩

/-! ## C5 and C10: the total inventory value aggregates -/

/-- On success, getStats's `totalInventoryValue` is the two-decimal rounding,
applied once, of the exact sum of `price * stock` over the store's active
products. -/
lemma getStats_ok_totalInventoryValue (stores : List Store) (products : List Product)
    (id : String) (t : Int) (st : StoresService.StoreStats)
    (h : StoresService.getStats stores products id t = Except.ok st) :
    st.totalInventoryValue =
      round2 ((((products.filter (fun p => p.storeId == id)).filter
        (fun p => p.isActive)).map (fun p => p.price * (p.stock : ℚ))).sum) := by
  unfold StoresService.getStats at h
  cases hf : stores.find? (fun s => s.id == id && s.isActive) with
  | none => rw [hf] at h; exact absurd h (by simp)
  | some store =>
    rw [hf] at h
    have hsid : store.id = id := by
      have hp := List.find?_some hf
      rw [Bool.and_eq_true, beq_iff_eq] at hp
      exact hp.1
    simp only [Except.ok.injEq] at h
    subst h
    dsimp only
    rw [hsid, foldl_add_map_sum (fun p : Product => p.price * (p.stock : ℚ)), zero_add]

/-- On success, getRevenue's `totalInventoryValue` is the two-decimal
rounding, applied once, of the same exact sum of `price * stock` over the
store's active products. -/
lemma getRevenue_ok_totalInventoryValue (stores : List Store) (products : List Product)
    (id : String) (rv : StoresService.StoreRevenue)
    (h : StoresService.getRevenue stores products id = Except.ok rv) :
    rv.totalInventoryValue =
      round2 ((((products.filter (fun p => p.storeId == id)).filter
        (fun p => p.isActive)).map (fun p => p.price * (p.stock : ℚ))).sum) := by
  unfold StoresService.getRevenue at h
  cases hf : stores.find? (fun s => s.id == id && s.isActive) with
  | none => rw [hf] at h; exact absurd h (by simp)
  | some store =>
    rw [hf] at h
    have hsid : store.id = id := by
      have hp := List.find?_some hf
      rw [Bool.and_eq_true, beq_iff_eq] at hp
      exact hp.1
    simp only [Except.ok.injEq] at h
    subst h
    dsimp only
    rw [hsid, foldl_add_map_sum (fun p : Product => p.price * (p.stock : ℚ)), zero_add]

/-- C5: on success, getStats computes `totalInventoryValue` as the exact sum
of `price * stock` over the store's active products with the two-decimal
round-to-nearest applied exactly once, to the final sum (not per item); the
embedding is a pure function of its inputs, so the result is deterministic. -/
theorem getStats_rounds_final_sum_once (stores : List Store) (products : List Product)
    (id : String) (t : Int) (st : StoresService.StoreStats)
    (h : StoresService.getStats stores products id t = Except.ok st) :
    st.totalInventoryValue =
      round2 ((((products.filter (fun p => p.storeId == id)).filter
        (fun p => p.isActive)).map (fun p => p.price * (p.stock : ℚ))).sum) :=
  getStats_ok_totalInventoryValue stores products id t st h

/-- Two products priced 10.005 with stock 1 each, for the spec's rounding
scenario. -/
def demoHalf1 : Product :=
  { id := "h1", name := "Articulo A", price := 2001 / 200, sku := "SKU-H1", stock := 1,
    category := none, isActive := true, storeId := "s1" }

/-- Second product priced 10.005 with stock 1. -/
def demoHalf2 : Product :=
  { id := "h2", name := "Articulo B", price := 2001 / 200, sku := "SKU-H2", stock := 1,
    category := none, isActive := true, storeId := "s1" }

/-- The stats record getStats returns for `[demoHalf1, demoHalf2]`: the two
10.005-priced items sum to 20.01 exactly once rounded. -/
def demoStatsRounded : StoresService.StoreStats :=
  { storeId := "s1", storeName := "Choppi Centro", totalProducts := 2,
    totalInventoryValue := 2001 / 100,
    productsByCategory :=
      [{ category := "Sin categoría", productCount := 2, totalValue := 2001 / 100 }],
    lowStockProducts := 2, lowStockThreshold := 10 }

/-- Witness for C5: the rounding scenario [10.005, 10.005] with stock 1 each
yields exactly 20.01, and the theorem applies to it. -/
theorem getStats_rounds_final_sum_once_witness :
    StoresService.getStats [demoStore] [demoHalf1, demoHalf2] "s1" 10 =
      Except.ok demoStatsRounded ∧
    demoStatsRounded.totalInventoryValue =
      round2 (((([demoHalf1, demoHalf2].filter (fun p => p.storeId == "s1")).filter
        (fun p => p.isActive)).map (fun p => p.price * (p.stock : ℚ))).sum) :=
  have h : StoresService.getStats [demoStore] [demoHalf1, demoHalf2] "s1" 10 =
      Except.ok demoStatsRounded := by
    unfold StoresService.getStats
    simp [List.find?, List.filter, List.foldl, List.map, List.any,
      StoresService.insertCategory, StoresService.categoryKey,
      demoStore, demoHalf1, demoHalf2, demoStatsRounded]
    norm_num [round2, jsRound]
  ⟨h, getStats_rounds_final_sum_once [demoStore] [demoHalf1, demoHalf2] "s1" 10
    demoStatsRounded h⟩

/-- C10: whenever getStats and getRevenue both succeed on the same store and
product data, they report the same `totalInventoryValue` — both are the
two-decimal rounding of the same sum of `price * stock` over the store's
active products. -/
theorem getStats_getRevenue_inventory_value_agree (stores : List Store)
    (products : List Product) (id : String) (t : Int)
    (st : StoresService.StoreStats) (rv : StoresService.StoreRevenue)
    (hs : StoresService.getStats stores products id t = Except.ok st)
    (hr : StoresService.getRevenue stores products id = Except.ok rv) :
    st.totalInventoryValue = rv.totalInventoryValue := by
  rw [getStats_ok_totalInventoryValue stores products id t st hs,
    getRevenue_ok_totalInventoryValue stores products id rv hr]

/-- Stats record for `[demoProduct]` in `demoStore`. -/
def demoStats1 : StoresService.StoreStats :=
  { storeId := "s1", storeName := "Choppi Centro", totalProducts := 1,
    totalInventoryValue := 2550,
    productsByCategory := [{ category := "Bebidas", productCount := 1, totalValue := 2550 }],
    lowStockProducts := 0, lowStockThreshold := 10 }

/-- Revenue record for `[demoProduct]` in `demoStore`. -/
def demoRevenue1 : StoresService.StoreRevenue :=
  { storeId := "s1", storeName := "Choppi Centro", totalInventoryValue := 2550,
    totalProducts := 1, totalStock := 100, averageProductPrice := 51 / 2 }

/-- Witness for C10: on `[demoProduct]` both aggregates report 2550. -/
theorem getStats_getRevenue_inventory_value_agree_witness :
    (StoresService.getStats [demoStore] [demoProduct] "s1" 10 = Except.ok demoStats1 ∧
      StoresService.getRevenue [demoStore] [demoProduct] "s1" = Except.ok demoRevenue1) ∧
    demoStats1.totalInventoryValue = demoRevenue1.totalInventoryValue :=
  have hs : StoresService.getStats [demoStore] [demoProduct] "s1" 10 =
      Except.ok demoStats1 := by
    unfold StoresService.getStats
    simp [List.find?, List.filter, List.foldl, List.map, List.any,
      StoresService.insertCategory, StoresService.categoryKey, demoStore, demoProduct,
      demoStats1]
    norm_num [round2, jsRound]
  have hr : StoresService.getRevenue [demoStore] [demoProduct] "s1" =
      Except.ok demoRevenue1 := by
    unfold StoresService.getRevenue
    simp [List.find?, List.filter, List.foldl, List.map, demoStore, demoProduct,
      demoRevenue1]
    norm_num [round2, jsRound]
  ⟨⟨hs, hr⟩, getStats_getRevenue_inventory_value_agree [demoStore] [demoProduct] "s1" 10
    demoStats1 demoRevenue1 hs hr⟩

/-! ## C2: the non-negative stock invariant -/

/-- A property true of every record stays true after a write-back whose
written record satisfies it. -/
lemma saveProduct_forall {P : Product → Prop} (products : List Product) (u : Product)
    (hP : ∀ p ∈ products, P p) (hu : P u) :
    ∀ p ∈ ProductsService.saveProduct products u, P p := by
  intro p hp
  unfold ProductsService.saveProduct at hp
  rw [List.mem_map] at hp
  obtain ⟨a, ha, hpe⟩ := hp
  subst hpe
  by_cases h : (a.id == u.id) = true
  · rw [if_pos h]
    exact hu
  · rw [if_neg h]
    exact hP a ha

/-- A single service-level adjustment with a non-negative quantity keeps every
stock non-negative. -/
lemma adjustStock_preserves_nonneg (products : List Product) (id : String) (q : Int)
    (ty : StockAdjustmentType) (hq : 0 ≤ q) (h0 : ∀ p ∈ products, 0 ≤ p.stock) :
    ∀ p ∈ (ProductsService.adjustStock products id q ty).1, 0 ≤ p.stock := by
  unfold ProductsService.adjustStock
  cases hfind : ProductsService.findOne products id with
  | error e => exact h0
  | ok product =>
    have hmem : product ∈ products :=
      List.mem_of_find?_eq_some (find?_of_findOne_ok products id product hfind)
    have hprod : 0 ≤ product.stock := h0 product hmem
    cases ty with
    | add =>
      exact saveProduct_forall products _ h0 (add_nonneg hprod hq)
    | subtract =>
      dsimp only
      by_cases hlt : product.stock < q
      · rw [if_pos hlt]
        exact h0
      · rw [if_neg hlt]
        exact saveProduct_forall products _ h0 (sub_nonneg.mpr (not_lt.mp hlt))
    | set =>
      exact saveProduct_forall products _ h0 hq

/-- A single validated adjustment keeps every stock non-negative, for any
quantity: invalid quantities are rejected before any mutation. -/
lemma adjustStockValidated_preserves_nonneg (products : List Product) (id : String)
    (q : Int) (ty : StockAdjustmentType) (h0 : ∀ p ∈ products, 0 ≤ p.stock) :
    ∀ p ∈ (ProductsService.adjustStockValidated products id q ty).1, 0 ≤ p.stock := by
  unfold ProductsService.adjustStockValidated
  by_cases hv : ProductsService.quantityValid q = true
  · rw [if_pos hv]
    exact adjustStock_preserves_nonneg products id q ty
      (by simpa [ProductsService.quantityValid] using hv) h0
  · rw [if_neg hv]
    exact h0

/-- C2: for every initial repository in which every stock is non-negative and
every sequence of validated adjustments (any mix of add, subtract, set, with
any quantities accepted by the operation), every product's stock stays
non-negative — covering every intermediate state, since the sequence is
arbitrary. -/
theorem stock_never_negative (products : List Product)
    (ops : List (String × Int × StockAdjustmentType))
    (h0 : ∀ p ∈ products, 0 ≤ p.stock) :
    ∀ p ∈ ProductsService.applyAdjustments products ops, 0 ≤ p.stock := by
  induction ops generalizing products with
  | nil => exact h0
  | cons op rest ih =>
    exact ih _ (adjustStockValidated_preserves_nonneg products op.1 op.2.1 op.2.2 h0)

/-- Witness for C2: a sequence with an oversized subtract and a negative set,
both rejected, never drives the stock negative. -/
theorem stock_never_negative_witness :
    (∀ p ∈ [demoProduct], 0 ≤ p.stock) ∧
    ∀ p ∈ ProductsService.applyAdjustments [demoProduct]
      [("p1", 50, StockAdjustmentType.add), ("p1", 200, StockAdjustmentType.subtract),
       ("p1", -7, StockAdjustmentType.set), ("p1", 30, StockAdjustmentType.set)],
      0 ≤ p.stock :=
  ⟨by decide, stock_never_negative [demoProduct] _ (by decide)⟩

/-! ## C6: findLowStock -/

/-- Filtering by a stock-key predicate that excludes everything below a
passing key commutes with `orderedInsert`: the inserted element lands in
front of the kept suffix exactly when it passes. -/
lemma orderedInsert_filter_key (f : Int → Bool)
    (hf : ∀ z z' : Int, f z = true → z' < z → f z' = false) :
    ∀ (a : Product) (l : List Product),
      (List.orderedInsert ProductsService.byStockAsc a l).filter (fun p => f p.stock) =
        if f a.stock = true then a :: l.filter (fun p => f p.stock)
        else l.filter (fun p => f p.stock)
  | a, [] => by
    by_cases h : f a.stock = true <;> simp [List.orderedInsert, h]
  | a, b :: l => by
    by_cases hab : ProductsService.byStockAsc a b
    · simp only [List.orderedInsert, if_pos hab]
      by_cases h : f a.stock = true <;> simp [List.filter_cons, h]
    · have hba : b.stock < a.stock := lt_of_not_le hab
      simp only [List.orderedInsert, if_neg hab]
      by_cases h : f a.stock = true
      · have hbf : f b.stock = false := hf a.stock b.stock h hba
        simp [List.filter_cons, orderedInsert_filter_key f hf a l, h, hbf]
      · simp [List.filter_cons, orderedInsert_filter_key f hf a l, h]

/-- Filtering by such a stock-key predicate commutes with the stable
insertion sort: equal-key elements keep their input order. -/
lemma insertionSort_filter_key (f : Int → Bool)
    (hf : ∀ z z' : Int, f z = true → z' < z → f z' = false) :
    ∀ l : List Product,
      (List.insertionSort ProductsService.byStockAsc l).filter (fun p => f p.stock) =
        l.filter (fun p => f p.stock)
  | [] => rfl
  | a :: l => by
    simp only [List.insertionSort]
    rw [orderedInsert_filter_key f hf a (List.insertionSort ProductsService.byStockAsc l)]
    by_cases h : f a.stock = true
    · rw [if_pos h, insertionSort_filter_key f hf l, List.filter_cons, if_pos (by simpa using h)]
    · rw [if_neg h, insertionSort_filter_key f hf l, List.filter_cons, if_neg (by simpa using h)]

/-- C6: findLowStock returns exactly the active products with
`stock <= threshold` from the whole product set (not store-scoped): the result
is sorted ascending by stock, is a permutation of that filter of the input,
and for every stock value the equal-stock products appear in stable input
order (no secondary sort). -/
theorem findLowStock_spec (products : List Product) (t : Int) :
    (ProductsService.findLowStock products t).Pairwise ProductsService.byStockAsc ∧
    (ProductsService.findLowStock products t).Perm
      (products.filter (fun p => p.isActive && decide (p.stock ≤ t))) ∧
    ∀ s : Int,
      (ProductsService.findLowStock products t).filter (fun p => decide (p.stock = s)) =
        products.filter (fun p => p.isActive && decide (p.stock ≤ t) && decide (p.stock = s)) := by
  refine ⟨?_, ?_, ?_⟩
  · exact List.Pairwise.filter _
      (List.sorted_insertionSort ProductsService.byStockAsc
        (products.filter (fun p => p.isActive)))
  · have h1 : (ProductsService.findLowStock products t).Perm
        ((products.filter (fun p => p.isActive)).filter (fun p => decide (p.stock ≤ t))) :=
      (List.perm_insertionSort ProductsService.byStockAsc
        (products.filter (fun p => p.isActive))).filter _
    have h2 : (products.filter (fun p => p.isActive)).filter (fun p => decide (p.stock ≤ t)) =
        products.filter (fun p => p.isActive && decide (p.stock ≤ t)) := by
      rw [List.filter_filter]
      exact List.filter_congr (fun p _ => Bool.and_comm _ _)
    rw [← h2]
    exact h1
  · intro s
    unfold ProductsService.findLowStock
    rw [List.filter_filter]
    have hf : ∀ z z' : Int, (decide (z = s) && decide (z ≤ t)) = true → z' < z →
        (decide (z' = s) && decide (z' ≤ t)) = false := by
      intro z z' hz hlt
      rw [Bool.and_eq_true, decide_eq_true_eq, decide_eq_true_eq] at hz
      have hne : ¬(z' = s) := by
        rw [← hz.1]
        exact ne_of_lt hlt
      simp [hne]
    have hsort := insertionSort_filter_key (fun z => decide (z = s) && decide (z ≤ t)) hf
      (products.filter (fun p => p.isActive))
    rw [hsort, List.filter_filter]
    exact List.filter_congr
      (fun p _ => by simp [Bool.and_comm, Bool.and_left_comm, Bool.and_assoc])

/-! ## C8: grouping by category -/

/-- Number of products of a list falling into category bucket `k`. -/
def catCount (l : List Product) (k : String) : Nat :=
  (l.filter (fun p => StoresService.categoryKey p.category == k)).length

/-- Summed `price * stock` of the products of a list falling into category
bucket `k`. -/
def catValue (l : List Product) (k : String) : ℚ :=
  ((l.filter (fun p => StoresService.categoryKey p.category == k)).map
    (fun p => p.price * (p.stock : ℚ))).sum

/-- Whether the accumulated category map already has an entry for key `k` —
the guard used by `insertCategory`. -/
def hasKey (m : List (String × Nat × ℚ)) (k : String) : Bool :=
  m.any (fun e => e.1 == k)

/-- The distinct category buckets of a product list, in order of first
encounter. -/
def firstKeys : List Product → List String
  | [] => []
  | p :: ps => StoresService.categoryKey p.category ::
      (firstKeys ps).filter (fun k => !(k == StoresService.categoryKey p.category))

/-- Bucket count over a cons. -/
lemma catCount_cons (p : Product) (ps : List Product) (k : String) :
    catCount (p :: ps) k =
      if (StoresService.categoryKey p.category == k) = true then catCount ps k + 1
      else catCount ps k := by
  unfold catCount
  rw [List.filter_cons]
  by_cases h : (StoresService.categoryKey p.category == k) = true
  · rw [if_pos h, if_pos h, List.length_cons]
  · rw [if_neg h, if_neg h]

/-- Bucket value over a cons. -/
lemma catValue_cons (p : Product) (ps : List Product) (k : String) :
    catValue (p :: ps) k =
      if (StoresService.categoryKey p.category == k) = true then
        p.price * (p.stock : ℚ) + catValue ps k
      else catValue ps k := by
  unfold catValue
  rw [List.filter_cons]
  by_cases h : (StoresService.categoryKey p.category == k) = true
  · rw [if_pos h, if_pos h, List.map_cons, List.sum_cons]
  · rw [if_neg h, if_neg h]

/-- Updating an existing bucket in place does not change which keys are
present. -/
lemma hasKey_bump (m : List (String × Nat × ℚ)) (key : String) (v : ℚ) (k : String) :
    hasKey (m.map (fun e => if (e.1 == key) = true then (e.1, e.2.1 + 1, e.2.2 + v) else e)) k =
      hasKey m k := by
  unfold hasKey
  rw [List.any_map]
  congr 1
  funext e
  by_cases he : (e.1 == key) = true
  · simp [Function.comp, he]
  · simp [Function.comp, he]

/-- Appending a fresh bucket adds exactly its key. -/
lemma hasKey_append_single (m : List (String × Nat × ℚ)) (key : String) (v : ℚ) (k : String) :
    hasKey (m ++ [(key, (1 : Nat), v)]) k = (hasKey m k || (key == k)) := by
  unfold hasKey
  rw [List.any_append]
  simp

/-- The `categoriesMap` fold of getStats, characterised: every pre-existing
bucket is bumped in place by the list's contributions to its key, and the
list's remaining keys are appended in order of first encounter, each with its
count and value. -/
lemma foldl_insertCategory :
    ∀ (l : List Product) (m : List (String × Nat × ℚ)),
      l.foldl (fun acc p => StoresService.insertCategory acc
          (StoresService.categoryKey p.category) (p.price * (p.stock : ℚ))) m =
        m.map (fun e => (e.1, e.2.1 + catCount l e.1, e.2.2 + catValue l e.1)) ++
        ((firstKeys l).filter (fun k => !(hasKey m k))).map
          (fun k => (k, catCount l k, catValue l k))
  | [], m => by
    simp [catCount, catValue, firstKeys]
  | p :: ps, m => by
    rw [List.foldl_cons]
    by_cases hk : hasKey m (StoresService.categoryKey p.category) = true
    · have hins : StoresService.insertCategory m (StoresService.categoryKey p.category)
          (p.price * (p.stock : ℚ)) =
          m.map (fun e => if (e.1 == StoresService.categoryKey p.category) = true
            then (e.1, e.2.1 + 1, e.2.2 + p.price * (p.stock : ℚ)) else e) := by
        unfold StoresService.insertCategory
        rw [if_pos (show (m.any fun e =>
          e.1 == StoresService.categoryKey p.category) = true from hk)]
      rw [hins, foldl_insertCategory ps]
      simp only [List.map_map, hasKey_bump]
      congr 1
      · apply List.map_congr_left
        intro e _
        simp only [Function.comp]
        by_cases he1 : (e.1 == StoresService.categoryKey p.category) = true
        · have hpe : (StoresService.categoryKey p.category == e.1) = true := by
            rw [beq_iff_eq] at he1 ⊢
            exact he1.symm
          simp only [if_pos he1]
          rw [catCount_cons, catValue_cons, if_pos hpe, if_pos hpe]
          simp only [Prod.mk.injEq]
          exact ⟨trivial, by omega, by ring⟩
        · have hpe : ¬(StoresService.categoryKey p.category == e.1) = true := by
            rw [beq_iff_eq] at he1 ⊢
            exact fun hh => he1 hh.symm
          simp only [if_neg he1]
          rw [catCount_cons, catValue_cons, if_neg hpe, if_neg hpe]
      · rw [show firstKeys (p :: ps) = StoresService.categoryKey p.category ::
            (firstKeys ps).filter (fun k => !(k == StoresService.categoryKey p.category))
          from rfl]
        rw [List.filter_cons, if_neg (by rw [hk]; simp)]
        rw [List.filter_filter]
        have hfc : List.filter (fun k => !(hasKey m k) &&
              !(k == StoresService.categoryKey p.category)) (firstKeys ps) =
            List.filter (fun k => !(hasKey m k)) (firstKeys ps) :=
          List.filter_congr (fun k _ => by
            by_cases hh : hasKey m k = true
            · simp [hh]
            · have hne : ¬(k == StoresService.categoryKey p.category) = true := by
                rw [beq_iff_eq]
                intro hkk
                rw [hkk] at hh
                exact hh hk
              simp [hh, hne])
        rw [hfc]
        apply List.map_congr_left
        intro k hkmem
        rw [List.mem_filter] at hkmem
        have hkf : hasKey m k = false := by
          simpa using hkmem.2
        have hknp : ¬(StoresService.categoryKey p.category == k) = true := by
          rw [beq_iff_eq]
          intro hkk
          rw [← hkk, hk] at hkf
          exact absurd hkf (by simp)
        rw [catCount_cons, catValue_cons, if_neg hknp, if_neg hknp]
    · have hins : StoresService.insertCategory m (StoresService.categoryKey p.category)
          (p.price * (p.stock : ℚ)) =
          m ++ [(StoresService.categoryKey p.category, (1 : Nat), p.price * (p.stock : ℚ))] := by
        unfold StoresService.insertCategory
        rw [if_neg (show ¬(m.any fun e =>
          e.1 == StoresService.categoryKey p.category) = true from hk)]
      have h1 : hasKey m (StoresService.categoryKey p.category) = false := by
        simpa using hk
      have hall : ∀ e ∈ m, (e.1 == StoresService.categoryKey p.category) = false := by
        intro e he
        have h2 := h1
        unfold hasKey at h2
        rw [List.any_eq_false] at h2
        simpa using h2 e he
      rw [hins, foldl_insertCategory ps]
      simp only [List.map_append, hasKey_append_single, List.map_cons, List.map_nil]
      rw [show firstKeys (p :: ps) = StoresService.categoryKey p.category ::
          (firstKeys ps).filter (fun k => !(k == StoresService.categoryKey p.category))
        from rfl]
      rw [List.filter_cons, if_pos (by rw [h1]; simp)]
      rw [List.map_cons, List.filter_filter]
      rw [List.append_assoc, List.singleton_append]
      congr 1
      · apply List.map_congr_left
        intro e he
        have hne : ¬(e.1 = StoresService.categoryKey p.category) := by
          simpa using hall e he
        have hpe : ¬(StoresService.categoryKey p.category == e.1) = true := by
          rw [beq_iff_eq]
          exact fun hh => hne hh.symm
        rw [catCount_cons, catValue_cons, if_neg hpe, if_neg hpe]
      · congr 1
        · have hself : (StoresService.categoryKey p.category ==
              StoresService.categoryKey p.category) = true := by
            rw [beq_iff_eq]
          rw [catCount_cons, catValue_cons, if_pos hself, if_pos hself]
          simp only [Prod.mk.injEq]
          exact ⟨trivial, by omega, trivial⟩
        · have hfc : List.filter (fun k => !(hasKey m k ||
                (StoresService.categoryKey p.category == k))) (firstKeys ps) =
              List.filter (fun k => !(hasKey m k) &&
                !(k == StoresService.categoryKey p.category)) (firstKeys ps) :=
            List.filter_congr (fun k _ => by
              by_cases hh : hasKey m k = true
              · simp [hh]
              · by_cases hkk : k = StoresService.categoryKey p.category
                · simp [hh, hkk]
                · have hx1 : (k == StoresService.categoryKey p.category) = false := by
                    simpa using hkk
                  have hx2 : (StoresService.categoryKey p.category == k) = false := by
                    simp
                    exact fun hx => hkk hx.symm
                  simp [hh, hx1, hx2])
          rw [hfc]
          apply List.map_congr_left
          intro k hkmem
          rw [List.mem_filter] at hkmem
          have hknp : ¬(StoresService.categoryKey p.category == k) = true := by
            have hkne : ¬(k == StoresService.categoryKey p.category) = true := by
              have := hkmem.2
              simp only [Bool.and_eq_true] at this
              simpa using this.2
            rw [beq_iff_eq] at hkne ⊢
            exact fun hh => hkne hh.symm
          rw [catCount_cons, catValue_cons, if_neg hknp, if_neg hknp]

/-- C8: on success, getStats groups the store's active products by category —
a missing or empty category falls into the single "Sin categoría"
(uncategorized) bucket — and `productsByCategory` lists one group per distinct
bucket in order of first encounter, each with its product count and its
`price * stock` total rounded to two decimals per group. -/
theorem getStats_groups_by_category (stores : List Store) (products : List Product)
    (id : String) (t : Int) (st : StoresService.StoreStats)
    (h : StoresService.getStats stores products id t = Except.ok st) :
    st.productsByCategory =
      (firstKeys ((products.filter (fun p => p.storeId == id)).filter
          (fun p => p.isActive))).map
        (fun k =>
          { category := k
            productCount := catCount ((products.filter (fun p => p.storeId == id)).filter
              (fun p => p.isActive)) k
            totalValue := round2 (catValue ((products.filter (fun p => p.storeId == id)).filter
              (fun p => p.isActive)) k) : StoresService.CategoryGroup }) ∧
    StoresService.categoryKey none = "Sin categoría" ∧
    StoresService.categoryKey (some "") = "Sin categoría" := by
  refine ⟨?_, rfl, by decide⟩
  unfold StoresService.getStats at h
  cases hf : stores.find? (fun s => s.id == id && s.isActive) with
  | none => rw [hf] at h; exact absurd h (by simp)
  | some store =>
    rw [hf] at h
    have hsid : store.id = id := by
      have hp := List.find?_some hf
      rw [Bool.and_eq_true, beq_iff_eq] at hp
      exact hp.1
    simp only [Except.ok.injEq] at h
    subst h
    dsimp only
    rw [hsid, foldl_insertCategory]
    simp [hasKey, List.map_map, Function.comp]

/-- Scenario-A product: Bebidas, price 100, stock 10. -/
def demoA1 : Product :=
  { id := "a1", name := "Refresco", price := 100, sku := "SKU-A1", stock := 10,
    category := some "Bebidas", isActive := true, storeId := "s1" }

/-- Scenario-A product: Bebidas, price 50, stock 5. -/
def demoA2 : Product :=
  { id := "a2", name := "Jugo", price := 50, sku := "SKU-A2", stock := 5,
    category := some "Bebidas", isActive := true, storeId := "s1" }

/-- Scenario-A product: Alimentos, price 200, stock 3. -/
def demoA3 : Product :=
  { id := "a3", name := "Arroz", price := 200, sku := "SKU-A3", stock := 3,
    category := some "Alimentos", isActive := true, storeId := "s1" }

/-- The stats record for scenario A: groups [Bebidas(2, 1250), Alimentos(1, 600)]
in first-encounter order. -/
def demoStatsA : StoresService.StoreStats :=
  { storeId := "s1", storeName := "Choppi Centro", totalProducts := 3,
    totalInventoryValue := 1850,
    productsByCategory :=
      [{ category := "Bebidas", productCount := 2, totalValue := 1250 },
       { category := "Alimentos", productCount := 1, totalValue := 600 }],
    lowStockProducts := 3, lowStockThreshold := 10 }

/-- Witness for C8: scenario A groups into [Bebidas(2,1250), Alimentos(1,600)],
and the characterisation theorem applies to it. -/
theorem getStats_groups_by_category_witness :
    StoresService.getStats [demoStore] [demoA1, demoA2, demoA3] "s1" 10 =
      Except.ok demoStatsA ∧
    (demoStatsA.productsByCategory =
      (firstKeys (([demoA1, demoA2, demoA3].filter (fun p => p.storeId == "s1")).filter
          (fun p => p.isActive))).map
        (fun k =>
          { category := k
            productCount := catCount (([demoA1, demoA2, demoA3].filter
              (fun p => p.storeId == "s1")).filter (fun p => p.isActive)) k
            totalValue := round2 (catValue (([demoA1, demoA2, demoA3].filter
              (fun p => p.storeId == "s1")).filter (fun p => p.isActive)) k)
            : StoresService.CategoryGroup }) ∧
      StoresService.categoryKey none = "Sin categoría" ∧
      StoresService.categoryKey (some "") = "Sin categoría") :=
  have h : StoresService.getStats [demoStore] [demoA1, demoA2, demoA3] "s1" 10 =
      Except.ok demoStatsA := by
    unfold StoresService.getStats
    simp [List.find?, List.filter, List.foldl, List.map, List.any,
      StoresService.insertCategory, StoresService.categoryKey, demoStore,
      demoA1, demoA2, demoA3, demoStatsA]
    norm_num [round2, jsRound]
  ⟨h, getStats_groups_by_category [demoStore] [demoA1, demoA2, demoA3] "s1" 10 demoStatsA h⟩

end Choppi
